import Mathlib

/-!
Shallow embedding of the `name-id` crate (src/src/lib.rs, src/macros/src/lib.rs).

The crate builds 64-bit identifiers by hashing a canonical string.  The hash
provider (`ahash` by default) is an external, pluggable dependency with the
contract "write bytes, finalize to a 64-bit value"; we model it as an
abstract function `H : List Nat → Nat` from the byte stream written into the
hasher to the final digest.  What the code determines — and what we embed —
is WHICH byte stream each `Hash` implementation feeds to the hasher:

* `str` / `String` / `Cow<str>` hash as the UTF-8 bytes followed by a
  single `0xFF` byte (`Hasher::write_str` default behaviour);
* `[u8]` / `Vec<u8>` hash as a length prefix (`write_usize`, 8 native-endian
  bytes on a 64-bit target) followed by the raw bytes;
* `CStr` / `CString` hash as the slice `to_bytes_with_nul()`.

`modelHash` below is one concrete stand-in provider used to evaluate the
development on concrete inputs.
-/

/-- One concrete 64-bit hash provider standing in for the pluggable external
hasher: an FNV-style fold over the byte stream, truncated to 64 bits. -/
def modelHash (bs : List Nat) : Nat :=
  bs.foldl (fun acc b => (acc * 1099511628211 + b + 1) % (2 ^ 64)) 1469598103934665603

/-- UTF-8 encoding of a single character (1–4 bytes, values < 256). -/
def charUtf8 (c : Char) : List Nat :=
  let n := c.toNat
  if n < 0x80 then [n]
  else if n < 0x800 then [0xC0 + n / 64, 0x80 + n % 64]
  else if n < 0x10000 then [0xE0 + n / 4096, 0x80 + n / 64 % 64, 0x80 + n % 64]
  else [0xF0 + n / 262144, 0x80 + n / 4096 % 64, 0x80 + n / 64 % 64, 0x80 + n % 64]

/-- UTF-8 byte sequence of a string. -/
def utf8Bytes (s : String) : List Nat :=
  (s.data.map charUtf8).flatten

/-- Decode one UTF-8 scalar from the front of a byte list, returning the code
point and the remaining bytes.  Follows the strict validation of Rust's
`core::str::from_utf8`: continuation bytes must be `0x80..=0xBF`, overlong
encodings, surrogates and code points above `0x10FFFF` are rejected. -/
def decodeChar : List Nat → Option (Nat × List Nat)
  | [] => none
  | b0 :: rest =>
    if b0 < 0x80 then some (b0, rest)
    else if 0xC2 ≤ b0 ∧ b0 ≤ 0xDF then
      match rest with
      | b1 :: rest' =>
        if 0x80 ≤ b1 ∧ b1 ≤ 0xBF then some ((b0 - 0xC0) * 64 + (b1 - 0x80), rest')
        else none
      | [] => none
    else if 0xE0 ≤ b0 ∧ b0 ≤ 0xEF then
      match rest with
      | b1 :: b2 :: rest' =>
        let lo1 := if b0 = 0xE0 then 0xA0 else 0x80
        let hi1 := if b0 = 0xED then 0x9F else 0xBF
        if lo1 ≤ b1 ∧ b1 ≤ hi1 ∧ 0x80 ≤ b2 ∧ b2 ≤ 0xBF then
          some ((b0 - 0xE0) * 4096 + (b1 - 0x80) * 64 + (b2 - 0x80), rest')
        else none
      | _ => none
    else if 0xF0 ≤ b0 ∧ b0 ≤ 0xF4 then
      match rest with
      | b1 :: b2 :: b3 :: rest' =>
        let lo1 := if b0 = 0xF0 then 0x90 else 0x80
        let hi1 := if b0 = 0xF4 then 0x8F else 0xBF
        if lo1 ≤ b1 ∧ b1 ≤ hi1 ∧ 0x80 ≤ b2 ∧ b2 ≤ 0xBF ∧ 0x80 ≤ b3 ∧ b3 ≤ 0xBF then
          some ((b0 - 0xF0) * 262144 + (b1 - 0x80) * 4096 + (b2 - 0x80) * 64 + (b3 - 0x80),
            rest')
        else none
      | _ => none
    else none

/-- Fuel-indexed decoding loop; the fuel is an upper bound on the number of
characters, `bs.length` always suffices. -/
def utf8DecodeLoop : Nat → List Nat → Option (List Char)
  | _, [] => some []
  | 0, _ :: _ => none
  | fuel + 1, b :: bs =>
    match decodeChar (b :: bs) with
    | some (n, rest) =>
      match utf8DecodeLoop fuel rest with
      | some cs => some (Char.ofNat n :: cs)
      | none => none
    | none => none

/-- Model of Rust's `core::str::from_utf8` / `String::from_utf8`: succeeds
exactly on well-formed UTF-8 and returns the decoded string. -/
def utf8Decode (bs : List Nat) : Option String :=
  match utf8DecodeLoop bs.length bs with
  | some cs => some (String.mk cs)
  | none => none

/-- The 8 native-endian (little-endian on the reference x86-64 target) bytes
written by `Hasher::write_usize` for a length prefix. -/
def usizeBytes (n : Nat) : List Nat :=
  [n % 256, n / 256 % 256, n / 256 ^ 2 % 256, n / 256 ^ 3 % 256,
   n / 256 ^ 4 % 256, n / 256 ^ 5 % 256, n / 256 ^ 6 % 256, n / 256 ^ 7 % 256]

/-- Byte stream fed to the hasher by `Hash for str` (and `String`,
`Cow<str>`): the UTF-8 bytes followed by one `0xFF` byte. -/
def strStream (s : String) : List Nat :=
  utf8Bytes s ++ [0xFF]

/-- Byte stream fed to the hasher by `Hash for [u8]` (and `Vec<u8>`): the
`write_usize` length prefix followed by the raw bytes. -/
def sliceStream (bs : List Nat) : List Nat :=
  usizeBytes bs.length ++ bs

/-- Byte stream fed to the hasher by `Hash for CStr` (and `CString`):
`to_bytes_with_nul()` hashed as a `[u8]` slice. -/
def cstrStream (bs : List Nat) : List Nat :=
  sliceStream (bs ++ [0])

/-- Digest of a string source: `Hasher::default(); s.hash(hasher); finish()`,
the shared pipeline of `From<&str> for NameId` (src/src/lib.rs lines 226-228)
and the `id!` macro body (src/macros/src/lib.rs lines 101-103). -/
def hashOfStr (H : List Nat → Nat) (s : String) : Nat :=
  H (strStream s)

/-!
## The identifier type

`NameId` (src/src/lib.rs lines 44-56) stores the 64-bit digest and, in the
`debug_assertions && debug_name` configuration, a `'static` debug label.  We
model the configuration-selected variants with an `Option String` label:
`some l` is the debug variant, `none` the release/`fixed_size` variants
(whose padding field carries no information).
-/

/-- The identifier value type: a 64-bit digest plus the optional debug
label.  Only `value` ever participates in equality, ordering or hashing. -/
structure NameId where
  value : Nat
  name : Option String
deriving DecidableEq, Repr

/-- Model of `NameId::from_raw` (src/src/lib.rs lines 74-93): both `cfg`
variants only store the digest (and, when the debug variant retains it, the
label); nothing else happens. -/
def NameId.from_raw (value : Nat) (label : Option String) : NameId :=
  ⟨value, label⟩

/-- Model of `NameId::value` (lines 96-98). -/
def NameId.valueFn (a : NameId) : Nat :=
  a.value

/-- Model of `NameId::const_eq_value` (lines 107-110). -/
def NameId.const_eq_value (a : NameId) (other : Nat) : Bool :=
  a.value == other

/-- Model of `NameId::const_eq` (lines 101-104). -/
def NameId.const_eq (a : NameId) (other : NameId) : Bool :=
  a.const_eq_value other.value

/-- Model of `NameId::const_cmp_value` (lines 119-127). -/
def NameId.const_cmp_value (a : NameId) (other : Nat) : Ordering :=
  if a.value > other then Ordering.gt
  else if a.value == other then Ordering.eq
  else Ordering.lt

/-- Model of `NameId::const_cmp` (lines 113-116). -/
def NameId.const_cmp (a : NameId) (other : NameId) : Ordering :=
  a.const_cmp_value other.value

/-- Model of `PartialEq::eq for NameId` (lines 132-137): delegates to
`const_eq`. -/
def NameId.beqId (a : NameId) (other : NameId) : Bool :=
  a.const_eq other

/-- Model of `Ord::cmp for NameId` (lines 163-168): delegates to
`const_cmp`. -/
def NameId.cmpId (a : NameId) (other : NameId) : Ordering :=
  a.const_cmp other

/-- Model of `PartialEq<S: AsRef<str>> for NameId` (lines 142-150): hash the
candidate string with the same hasher pipeline and compare digests. -/
def NameId.eqText (H : List Nat → Nat) (a : NameId) (other : String) : Bool :=
  let value := H (strStream other)
  a.value == value

/-- Model of `From<NameId> for u64` (lines 277-281). -/
def u64FromNameId (id : NameId) : Nat :=
  id.value

/-!
## Collision registry

With the `detect_collisions` feature, runtime construction consults a
process-wide `BTreeMap<u64, &'static str>` (src/src/lib.rs lines 30-35).  We
model the map as an association list without duplicate keys in which `insert`
replaces an existing binding, and model the `assert_eq!` panic (an aborted
construction, lines 233-239) as `none`.
-/

/-- The process-wide digest → first-seen-name map. -/
abbrev Registry := List (Nat × String)

/-- Map lookup, `BTreeMap::get`. -/
def lookupReg : Registry → Nat → Option String
  | [], _ => none
  | (k, v) :: rest, d => if k = d then some v else lookupReg rest d

/-- Map insertion, `BTreeMap::insert`: replaces the binding when the key is
present. -/
def insertReg : Registry → Nat → String → Registry
  | [], d, n => [(d, n)]
  | (k, v) :: rest, d, n =>
    if k = d then (d, n) :: rest else (k, v) :: insertReg rest d n

/-- The `detect_collisions` registration step (src/src/lib.rs lines 232-241):
look the digest up, `assert_eq!` the stored name against the incoming one
(`none` models the panic on mismatch), then insert. -/
def registerName (reg : Registry) (d : Nat) (n : String) : Option Registry :=
  match lookupReg reg d with
  | some previous =>
      if previous = n then some (insertReg reg d n) else none
  | none => some (insertReg reg d n)

/-!
## Runtime construction

`impl_from!` (src/src/lib.rs lines 223-251) generates the `From`
implementations: hash the source value (each type's `Hash` impl decides the
byte stream), optionally audit the collision registry, and finish with
`from_raw`.  `NameId::new` (lines 69-72) only delegates to these.  The `dbg`
flag selects whether the `debug_name` variant retains a label.
-/

/-- `From<&'static str> for NameId` without `detect_collisions`
(lines 226-228 and 245-248): hash the `str` stream, then `from_raw`. -/
def NameId.fromStr (H : List Nat → Nat) (dbg : Bool) (s : String) : NameId :=
  NameId.from_raw (H (strStream s)) (if dbg then some s else none)

/-- `From<&[u8]> for NameId` without `detect_collisions` (lines 226-228 and
245-248, instantiated at `&'a [u8]`): the slice is hashed through
`Hash for [u8]`, i.e. with a length prefix and no UTF-8 decoding.  (The
`debug_name` variant attaches a lossy decoding of the bytes as label; no
claim observes labels, so the model keeps `none`.) -/
def NameId.fromBytes (H : List Nat → Nat) (bs : List Nat) : NameId :=
  NameId.from_raw (H (sliceStream bs)) none

/-- `From<&CStr> for NameId` without `detect_collisions`: the C string is
hashed through `Hash for CStr`, i.e. `to_bytes_with_nul()` as a slice. -/
def NameId.fromCStr (H : List Nat → Nat) (bs : List Nat) : NameId :=
  NameId.from_raw (H (cstrStream bs)) none

/-- `From<&'static str> for NameId` with `detect_collisions`
(lines 229-244): hash, audit the registry (`none` models the abort), insert,
then `from_raw`.  Returns the constructed id and the updated registry. -/
def NameId.fromStrChecked (H : List Nat → Nat) (dbg : Bool) (reg : Registry)
    (s : String) : Option (NameId × Registry) :=
  let value := H (strStream s)
  match registerName reg value s with
  | some reg' =>
      some (NameId.from_raw value (if dbg then some s else none), reg')
  | none => none

/-!
## Build-time resolution (the `id!` procedural macro)

src/macros/src/lib.rs.  A token of the macro input is an identifier, one of
`syn`'s literal kinds, or a lifetime; anything else is unsupported.  The
canonicalization errors are the three recoverable construction failures of
the spec's taxonomy.
-/

/-- One input token of the `id!` macro, as classified by `stringify_stream`
(src/macros/src/lib.rs lines 26-70).  `litInt` carries the base-10 digit
string that `syn`'s `LitInt::base10_digits` yields for the literal;
`litCStr` carries the value bytes without the trailing nul. -/
inductive Token where
  | ident (s : String)
  | litStr (s : String)
  | litByteStr (bytes : List Nat)
  | litCStr (bytes : List Nat)
  | litByte (b : Nat)
  | litChar (c : Char)
  | litInt (digits : String)
  | litFloat (spelling : String)
  | litBool (b : Bool)
  | lifetime (label : String)
  | unsupported
deriving DecidableEq, Repr

/-- The recoverable canonicalization failures. -/
inductive CanonError where
  | invalidEncoding
  | nonInjectiveSource
  | unsupportedLiteral
deriving DecidableEq, Repr

/-- Model of `stringify_stream` (src/macros/src/lib.rs lines 26-70): the
canonical string of one token, or the canonicalization error. -/
def stringify_stream : Token → Except CanonError String
  | .ident s => .ok s
  | .litStr s => .ok s
  | .litByteStr bs =>
    match utf8Decode bs with
    | some s => .ok s
    | none => .error .invalidEncoding
  | .litCStr bs =>
    match utf8Decode bs with
    | some s => .ok s
    | none => .error .invalidEncoding
  | .litByte b =>
    match utf8Decode [b] with
    | some s => .ok s
    | none => .error .invalidEncoding
  | .litChar c => .ok (String.singleton c)
  | .litInt digits => .ok digits
  | .litFloat _ => .error .nonInjectiveSource
  | .litBool b => .ok (if b then "true" else "false")
  | .lifetime l => .ok (String.singleton (Char.ofNat 39) ++ l)
  | .unsupported => .error .unsupportedLiteral

/-- The `while !input.is_empty()` loop of `IdInput::parse`
(src/macros/src/lib.rs lines 75-78): push a space, then the next token's
canonical string. -/
def parseLoop (acc : String) : List Token → Except CanonError String
  | [] => .ok acc
  | t :: rest =>
    match stringify_stream t with
    | .ok s => parseLoop (acc ++ " " ++ s) rest
    | .error e => .error e

/-- Model of `IdInput::parse` (src/macros/src/lib.rs lines 72-84): the
canonical string of the whole macro input.  On empty input the first
`stringify_stream` call fails with `input.error("unsupported id macro
value")`. -/
def parseIdInput : List Token → Except CanonError String
  | [] => .error .unsupportedLiteral
  | t :: rest =>
    match stringify_stream t with
    | .ok s => parseLoop s rest
    | .error e => .error e

/-- Per-token canonical strings joined in source order by exactly one
space. -/
def joinSpace : List String → String
  | [] => ""
  | s :: rest => rest.foldl (fun a t => a ++ " " ++ t) s

/-- Model of the `id` macro entry point (src/macros/src/lib.rs lines
97-114): parse/canonicalize the input, hash the canonical string with the
same pipeline as the runtime path, and emit `NameId::from_raw(hash, name)`
(debug builds, `dbg = true`) or `NameId::from_raw(hash)` (release). -/
def idResolve (H : List Nat → Nat) (dbg : Bool) (toks : List Token) :
    Except CanonError NameId :=
  match parseIdInput toks with
  | .ok ident =>
      .ok (NameId.from_raw (H (strStream ident)) (if dbg then some ident else none))
  | .error e => .error e

/-- Evaluating `NameId.from_raw` in a process whose collision registry is
`reg`: the body (src/src/lib.rs lines 74-93) only builds the struct, so the
registry component of the process state is passed through untouched. -/
def from_raw_run (reg : Registry) (value : Nat) (label : Option String) :
    NameId × Registry :=
  (NameId.from_raw value label, reg)

/-- Evaluating the expansion of `id!` in a process whose collision registry
is `reg`: the macro expands to a bare `NameId::from_raw` call
(src/macros/src/lib.rs lines 104-112), so the only run-time effect is
`from_raw_run`. -/
def idResolveRun (H : List Nat → Nat) (dbg : Bool) (reg : Registry)
    (toks : List Token) : Except CanonError (NameId × Registry) :=
  match parseIdInput toks with
  | .ok ident =>
      .ok (from_raw_run reg (H (strStream ident)) (if dbg then some ident else none))
  | .error e => .error e

/-- All tokens canonicalized independently, in source order. -/
def stringifyAll : List Token → Except CanonError (List String)
  | [] => .ok []
  | t :: rest =>
    match stringify_stream t with
    | .ok s =>
      match stringifyAll rest with
      | .ok ss => .ok (s :: ss)
      | .error e => .error e
    | .error e => .error e

/-!
## Shared lemmas
-/

theorem NameId.const_cmp_value_eq_compare (a : NameId) (o : Nat) :
    a.const_cmp_value o = compare a.value o := by
  unfold NameId.const_cmp_value
  rcases Nat.lt_trichotomy a.value o with h | h | h
  · rw [if_neg (by omega), if_neg (by simpa using Nat.ne_of_lt h),
      Nat.compare_eq_lt.mpr h]
  · rw [if_neg (by omega), if_pos (by simpa using h), Nat.compare_eq_eq.mpr h]
  · rw [if_pos h, Nat.compare_eq_gt.mpr h]

theorem NameId.const_cmp_lt_iff (a b : NameId) :
    a.const_cmp b = Ordering.lt ↔ a.value < b.value := by
  rw [NameId.const_cmp, NameId.const_cmp_value_eq_compare]
  exact Nat.compare_eq_lt

theorem lookupReg_insertReg_self (reg : Registry) (d : Nat) (n : String) :
    lookupReg (insertReg reg d n) d = some n := by
  induction reg with
  | nil => simp [insertReg, lookupReg]
  | cons kv rest ih =>
    obtain ⟨k, v⟩ := kv
    by_cases h : k = d
    · simp [insertReg, h, lookupReg]
    · simp [insertReg, h, lookupReg, ih]

theorem insertReg_insertReg_same (reg : Registry) (d : Nat) (n : String) :
    insertReg (insertReg reg d n) d n = insertReg reg d n := by
  induction reg with
  | nil => simp [insertReg]
  | cons kv rest ih =>
    obtain ⟨k, v⟩ := kv
    by_cases h : k = d
    · simp [insertReg, h]
    · simp [insertReg, h, ih]

theorem registerName_insert (reg reg' : Registry) (d : Nat) (n : String)
    (h : registerName reg d n = some reg') : reg' = insertReg reg d n := by
  unfold registerName at h
  split at h
  · split at h
    · exact (Option.some.injEq _ _ ▸ h).symm
    · cases h
  · exact (Option.some.injEq _ _ ▸ h).symm

theorem parseLoop_ok (toks : List Token) (ss : List String) (acc : String)
    (h : stringifyAll toks = .ok ss) :
    parseLoop acc toks = .ok (ss.foldl (fun a t => a ++ " " ++ t) acc) := by
  induction toks generalizing acc ss with
  | nil =>
    simp [stringifyAll] at h
    subst h
    simp [parseLoop]
  | cons t rest ih =>
    rw [stringifyAll] at h
    cases hs : stringify_stream t with
    | error e => rw [hs] at h; cases h
    | ok s =>
      rw [hs] at h
      cases hrest : stringifyAll rest with
      | error e => rw [hrest] at h; cases h
      | ok ss' =>
        rw [hrest] at h
        cases h
        simp only [parseLoop, hs, ih ss' (acc ++ " " ++ s) hrest]
        simp [List.foldl]

theorem parseLoop_error_of_mem_float (toks : List Token) (f : String)
    (h : Token.litFloat f ∈ toks) (acc : String) :
    ∃ e, parseLoop acc toks = .error e := by
  induction toks generalizing acc with
  | nil => cases h
  | cons t rest ih =>
    cases hs : stringify_stream t with
    | error e => exact ⟨e, by rw [parseLoop, hs]⟩
    | ok s =>
      rcases List.mem_cons.mp h with h1 | h1
      · rw [← h1, stringify_stream] at hs; cases hs
      · obtain ⟨e, he⟩ := ih h1 (acc ++ " " ++ s)
        exact ⟨e, by simp only [parseLoop, hs, he]⟩

theorem parseIdInput_error_of_mem_float (toks : List Token) (f : String)
    (h : Token.litFloat f ∈ toks) :
    ∃ e, parseIdInput toks = .error e := by
  cases toks with
  | nil => cases h
  | cons t rest =>
    cases hs : stringify_stream t with
    | error e => exact ⟨e, by rw [parseIdInput, hs]⟩
    | ok s =>
      rcases List.mem_cons.mp h with h1 | h1
      · rw [← h1, stringify_stream] at hs; cases hs
      · obtain ⟨e, he⟩ := parseLoop_error_of_mem_float rest f h1 s
        exact ⟨e, by simp only [parseIdInput, hs, he]⟩

/-!
## Claim theorems
-/

/-- C2: `PartialEq::eq` on two `NameId`s (which delegates to `const_eq`)
returns true exactly when the two digests are equal, and the optional debug
label plays no part in equality. -/
theorem c2_eq_iff_digest_eq :
    (∀ a b : NameId, NameId.beqId a b = NameId.const_eq a b) ∧
    (∀ a b : NameId, NameId.const_eq a b = true ↔ a.value = b.value) ∧
    (∀ (v : Nat) (l₁ l₂ : Option String),
      NameId.const_eq (NameId.from_raw v l₁) (NameId.from_raw v l₂) = true) := by
  refine ⟨fun a b => rfl, fun a b => ?_, fun v l₁ l₂ => ?_⟩
  · simp [NameId.const_eq, NameId.const_eq_value]
  · simp [NameId.const_eq, NameId.const_eq_value, NameId.from_raw]

/-- C10: constructing a `NameId` from a raw digest and reading the digest
back — via `value()` or `From<NameId> for u64` — is the identity, for every
value and every label configuration, with no failure path. -/
theorem c10_from_raw_value_roundtrip :
    ∀ (v : Nat) (l : Option String),
      (NameId.from_raw v l).value = v ∧
      (NameId.from_raw v l).valueFn = v ∧
      u64FromNameId (NameId.from_raw v l) = v :=
  fun _ _ => ⟨rfl, rfl, rfl⟩

/-- C7: `Ord::cmp` delegates to `const_cmp`, `const_cmp` agrees with the
natural order of the `u64` digests, and the induced strict order is
transitive: `a < b` and `b < c` imply `a < c`. -/
theorem c7_order_agrees_with_digest_order (a b c : NameId)
    (hab : NameId.const_cmp a b = Ordering.lt)
    (hbc : NameId.const_cmp b c = Ordering.lt) :
    (∀ x y : NameId, NameId.cmpId x y = NameId.const_cmp x y) ∧
    (∀ x y : NameId, NameId.const_cmp x y = compare x.value y.value) ∧
    NameId.const_cmp a c = Ordering.lt := by
  refine ⟨fun x y => rfl, fun x y => NameId.const_cmp_value_eq_compare x y.value, ?_⟩
  exact (NameId.const_cmp_lt_iff a c).mpr
    (lt_trans ((NameId.const_cmp_lt_iff a b).mp hab) ((NameId.const_cmp_lt_iff b c).mp hbc))

/-- Witness for C7 on the concrete digests 1 < 2 < 3. -/
theorem c7_witness :
    NameId.const_cmp (NameId.from_raw 1 none) (NameId.from_raw 3 none) = Ordering.lt ∧
    NameId.const_cmp (NameId.from_raw 1 none) (NameId.from_raw 2 none) =
      compare (NameId.from_raw 1 none).value (NameId.from_raw 2 none).value :=
  ⟨(c7_order_agrees_with_digest_order (NameId.from_raw 1 none) (NameId.from_raw 2 none)
      (NameId.from_raw 3 none) (by decide) (by decide)).2.2,
   (c7_order_agrees_with_digest_order (NameId.from_raw 1 none) (NameId.from_raw 2 none)
      (NameId.from_raw 3 none) (by decide) (by decide)).2.1
     (NameId.from_raw 1 none) (NameId.from_raw 2 none)⟩

/-- C8: the build-time construction path never modifies the collision
registry: evaluating the expansion of `id!` — a bare `NameId::from_raw`
call — passes the registry through untouched, for every raw value and
label. -/
theorem c8_buildtime_frame (H : List Nat → Nat) (dbg : Bool) (reg reg' : Registry)
    (toks : List Token) (nid : NameId) (v : Nat) (l : Option String)
    (h : idResolveRun H dbg reg toks = .ok (nid, reg')) :
    reg' = reg ∧ (from_raw_run reg v l).2 = reg := by
  refine ⟨?_, rfl⟩
  unfold idResolveRun at h
  split at h
  · simp only [Except.ok.injEq] at h
    exact (congrArg Prod.snd h).symm
  · cases h

/-- Witness for C8 at a concrete macro input and registry. -/
theorem c8_witness :
    ([] : Registry) = [] ∧ (from_raw_run [] 7 none).2 = [] :=
  c8_buildtime_frame modelHash true [] [] [Token.ident "x"]
    (NameId.from_raw (modelHash (strStream "x")) (some "x")) 7 none rfl

/-- C6: after a successful registration of digest `d` with name `n₁`,
registering `(d, n₁)` again is a no-op returning the registry observably
unchanged, while registering `(d, n₂)` with `n₂ ≠ n₁` aborts the process
(modelled by `none`). -/
theorem c6_registry_reregistration (reg reg' : Registry) (d : Nat) (n₁ n₂ : String)
    (hne : n₁ ≠ n₂) (h : registerName reg d n₁ = some reg') :
    registerName reg' d n₁ = some reg' ∧ registerName reg' d n₂ = none := by
  have hins := registerName_insert reg reg' d n₁ h
  subst hins
  have hl := lookupReg_insertReg_self reg d n₁
  constructor
  · simp [registerName, hl, insertReg_insertReg_same]
  · simp only [registerName, hl]
    rw [if_neg hne]

/-- Witness for C6 at a concrete digest and names. -/
theorem c6_witness :
    registerName [(5, "a")] 5 "a" = some [(5, "a")] ∧
    registerName [(5, "a")] 5 "b" = none :=
  c6_registry_reregistration [] [(5, "a")] 5 "a" "b" (by decide) rfl

/-- C9: comparing a `NameId` against a string-like value hashes the
candidate through the exact same pipeline as runtime construction and
compares digests; an id built from "hello" matches "hello" and, when the
two hashes do not collide, does not match "Hello". -/
theorem c9_eqText_same_pipeline (H : List Nat → Nat) (dbg : Bool) (s : String)
    (hnc : H (strStream "Hello") ≠ H (strStream "hello")) :
    (∀ nid : NameId, NameId.eqText H nid s = true ↔ nid.value = hashOfStr H s) ∧
    (∀ t : String, NameId.eqText H (NameId.fromStr H dbg t) t = true) ∧
    NameId.eqText H (NameId.fromStr H dbg "hello") "hello" = true ∧
    NameId.eqText H (NameId.fromStr H dbg "hello") "Hello" = false := by
  refine ⟨fun nid => ?_, fun t => ?_, ?_, ?_⟩
  · simp [NameId.eqText, hashOfStr]
  · simp [NameId.eqText, NameId.fromStr, NameId.from_raw]
  · simp [NameId.eqText, NameId.fromStr, NameId.from_raw]
  · simp [NameId.eqText, NameId.fromStr, NameId.from_raw]
    exact fun hcontra => hnc hcontra.symm

/-- Witness for C9 under the concrete model provider. -/
theorem c9_witness :
    NameId.eqText modelHash (NameId.fromStr modelHash true "hello") "hello" = true ∧
    NameId.eqText modelHash (NameId.fromStr modelHash true "hello") "Hello" = false :=
  ⟨(c9_eqText_same_pipeline modelHash true "x" (by decide)).2.2.1,
   (c9_eqText_same_pipeline modelHash true "x" (by decide)).2.2.2⟩

/-- C1: for every supported macro input, the digest embedded at build time
by `id!` equals the digest computed at runtime by `From<&'static str>` on
the same canonical string — both for the plain path and for the
collision-audited (`detect_collisions`) path whenever it completes. -/
theorem c1_buildtime_runtime_agree (H : List Nat → Nat) (dbg dbg' : Bool)
    (toks : List Token) (s : String) (nid nid' : NameId) (reg reg' : Registry)
    (hp : parseIdInput toks = .ok s)
    (hm : idResolve H dbg toks = .ok nid)
    (hc : NameId.fromStrChecked H dbg' reg s = some (nid', reg')) :
    nid.value = (NameId.fromStr H dbg' s).value ∧ nid'.value = nid.value := by
  unfold idResolve at hm
  split at hm
  · next ident heq =>
    rw [hp] at heq
    injection heq with heq2
    subst heq2
    simp only [Except.ok.injEq] at hm
    subst hm
    constructor
    · rfl
    · unfold NameId.fromStrChecked at hc
      dsimp only at hc
      cases hreg : registerName reg (H (strStream s)) s with
      | none =>
        rw [hreg] at hc
        exact Option.noConfusion hc
      | some reg2 =>
        rw [hreg] at hc
        simp only [Option.some.injEq, Prod.mk.injEq] at hc
        rw [← hc.1]
        rfl
  · cases hm

/-- Witness for C1 at the concrete input `id!(x)` under the model
provider. -/
theorem c1_witness :
    (NameId.from_raw (modelHash (strStream "x")) (some "x")).value =
      (NameId.fromStr modelHash false "x").value ∧
    (NameId.from_raw (modelHash (strStream "x")) none).value =
      (NameId.from_raw (modelHash (strStream "x")) (some "x")).value :=
  c1_buildtime_runtime_agree modelHash true false [Token.ident "x"] "x"
    (NameId.from_raw (modelHash (strStream "x")) (some "x"))
    (NameId.from_raw (modelHash (strStream "x")) none)
    [] [(modelHash (strStream "x"), "x")] rfl rfl rfl

/-- C4: every floating-point literal fails build-time canonicalization with
`NonInjectiveSource` — as a single input and as such — and no macro input
containing a float literal ever produces a `NameId`. -/
theorem c4_float_always_fails (sp f : String) (toks : List Token)
    (H : List Nat → Nat) (dbg : Bool) (nid : NameId)
    (hmem : Token.litFloat f ∈ toks) :
    stringify_stream (Token.litFloat sp) = .error .nonInjectiveSource ∧
    parseIdInput [Token.litFloat sp] = .error .nonInjectiveSource ∧
    idResolve H dbg toks ≠ .ok nid := by
  refine ⟨rfl, rfl, ?_⟩
  obtain ⟨e, he⟩ := parseIdInput_error_of_mem_float toks f hmem
  intro hcontra
  unfold idResolve at hcontra
  split at hcontra
  · next ident heq => rw [he] at heq; cases heq
  · cases hcontra

/-- Witness for C4 at the concrete float spelling `1.0`. -/
theorem c4_witness :
    stringify_stream (Token.litFloat "1.0") = .error .nonInjectiveSource ∧
    parseIdInput [Token.litFloat "1.0"] = .error .nonInjectiveSource ∧
    idResolve modelHash true [Token.litFloat "1.0"] ≠ .ok (NameId.from_raw 0 none) :=
  c4_float_always_fails "1.0" "1.0" [Token.litFloat "1.0"] modelHash true
    (NameId.from_raw 0 none) (by decide)

/-- C5: an input of several supported tokens canonicalizes to the
per-token canonical strings joined in source order by exactly one space,
and the macro digest equals the digest of constructing the joined string
directly. -/
theorem c5_multi_token_join (toks : List Token) (ss : List String)
    (H : List Nat → Nat) (dbg dbg' : Bool)
    (hlen : 1 < toks.length)
    (hss : stringifyAll toks = .ok ss) :
    parseIdInput toks = .ok (joinSpace ss) ∧
    (idResolve H dbg toks).map NameId.value =
      .ok ((NameId.fromStr H dbg' (joinSpace ss)).value) := by
  have hparse : parseIdInput toks = .ok (joinSpace ss) := by
    cases toks with
    | nil => exact absurd hlen (by simp)
    | cons t rest =>
      rw [stringifyAll] at hss
      cases hs : stringify_stream t with
      | error e => rw [hs] at hss; cases hss
      | ok s =>
        rw [hs] at hss
        cases hrest : stringifyAll rest with
        | error e => rw [hrest] at hss; cases hss
        | ok ss' =>
          rw [hrest] at hss
          cases hss
          simp only [parseIdInput, hs]
          rw [parseLoop_ok rest ss' s hrest]
          rfl
  refine ⟨hparse, ?_⟩
  unfold idResolve
  rw [hparse]
  simp [NameId.fromStr, NameId.from_raw, Except.map]

/-- Witness for C5 at the concrete input `id!(a b c)` under the model
provider; the joined canonical string is literally `"a b c"`. -/
theorem c5_witness :
    parseIdInput [Token.ident "a", Token.ident "b", Token.ident "c"] =
      .ok (joinSpace ["a", "b", "c"]) ∧
    (idResolve modelHash true [Token.ident "a", Token.ident "b", Token.ident "c"]).map
      NameId.value = .ok ((NameId.fromStr modelHash false "a b c").value) ∧
    joinSpace ["a", "b", "c"] = "a b c" := by
  have h := c5_multi_token_join [Token.ident "a", Token.ident "b", Token.ident "c"]
    ["a", "b", "c"] modelHash true false (by decide) rfl
  exact ⟨h.1, h.2, by decide⟩

/-- C3 counterexample: the byte slice `b"hello"` decodes to `"hello"`, yet
under the concrete model provider the `NameId` built from the byte slice
has a different digest than the one built from the string `"hello"`.  No
hash collision is involved: `From<&[u8]>` feeds the hasher a slice-style
byte stream (length prefix, no suffix), `From<&str>` a str-style stream
(`0xFF` suffix), so the two paths hash different byte sequences. -/
theorem c3_counterexample :
    utf8Decode [104, 101, 108, 108, 111] = some "hello" ∧
    (NameId.fromBytes modelHash [104, 101, 108, 108, 111]).value ≠
      (NameId.fromStr modelHash true "hello").value := by
  exact ⟨by decide, by decide⟩

/-- C3 amended: for string sources the equivalence holds — equal strings
yield equal digests, and (assuming the two digests do not collide) equal
digests imply equal strings.  A byte slice carrying the UTF-8 encoding of a
string `s`, however, is hashed through `Hash for [u8]`: the byte stream fed
to the hasher always differs from the stream of `s` (8-byte length prefix
versus `0xFF` suffix), so the code does not guarantee equal digests for
byte slices and their decoded strings. -/
theorem c3_canonical_iff_digest (H : List Nat → Nat) (dbg : Bool)
    (s₁ s₂ s : String) (bs : List Nat)
    (hnc : H (strStream s₁) = H (strStream s₂) → s₁ = s₂)
    (hbs : bs = utf8Bytes s) :
    ((NameId.fromStr H dbg s₁).value = (NameId.fromStr H dbg s₂).value ↔ s₁ = s₂) ∧
    sliceStream bs ≠ strStream s := by
  constructor
  · constructor
    · intro h
      exact hnc (by simpa [NameId.fromStr, NameId.from_raw] using h)
    · intro h
      rw [h]
  · intro hcontra
    have hlen := congrArg List.length hcontra
    rw [hbs] at hlen
    simp [sliceStream, strStream, usizeBytes] at hlen
    omega

/-- Witness for the amended C3 at concrete strings and the model
provider. -/
theorem c3_amended_witness :
    ((NameId.fromStr modelHash true "a").value =
        (NameId.fromStr modelHash true "b").value ↔ "a" = "b") ∧
    sliceStream (utf8Bytes "hello") ≠ strStream "hello" :=
  c3_canonical_iff_digest modelHash true "a" "b" "hello" (utf8Bytes "hello")
    (by decide) rfl
